import Mathlib

/-!
Verification of the swnSQLite facade (src/src/index.mts).

The facade is a thin wrapper around an SQLite database: every operation
opens a handle to the database file, executes exactly one statement, and
closes the handle, returning nothing, all rows, or one row.  The higher
level operations (createTable, insert, update, delete, selectAll,
selectWhere, selectAllOrdered) build a statement string by interpolation
and delegate to one of the three primitives.

The development has two layers.

String layer: the query builders and the delegation structure of the
facade, translated directly from the source.  The behaviour of the
external engine on a raw statement string is kept abstract here, as a
StringEngine record, because the delegation facts do not depend on it.

Semantic layer: statements as an abstract syntax (table name, column
lists, semantic conditions and assignments), a model of the external
SQLite engine executing one statement against a database value, and a
World that counts the handles the facade has opened and not closed.  The
control flow of the three primitives is translated from the source:
open, run, close, where a run error propagates immediately, so the close
step is skipped on the failure path, exactly as in the source where the
awaited rejection of db.run prevents db.close from running.
-/

/-- A scalar value bound to a statement or stored in a row. -/
inductive Value where
  | intV (i : Int)
  | textV (s : String)
  | nullV
deriving DecidableEq, Repr

/-- A row: a mapping from column name to value, in column order. -/
abbrev Row := List (String × Value)

/-- A table: its column names and its rows, in insertion order. -/
structure Table where
  cols : List String
  rows : List Row
deriving DecidableEq, Repr

/-- A database: a mapping from table name to table. -/
abbrev DB := List (String × Table)

/-- Errors signalled by the modelled engine. -/
inductive Err where
  | parseError
  | noSuchTable
  | noSuchColumn
  | duplicateColumn
  | columnCountMismatch
  | arityMismatch
deriving DecidableEq, Repr

/-- First-match association lookup, used for rows and for the database. -/
def assocGet {α : Type} : List (String × α) → String → Option α
  | [], _ => none
  | (k, v) :: rest, c => if k = c then some v else assocGet rest c

/-- Replace the table bound to a name, leaving every other binding alone. -/
def dbSet : DB → String → Table → DB
  | [], _, _ => []
  | (n, tb) :: rest, t, tbl =>
      if n = t then (n, tbl) :: rest else (n, tb) :: dbSet rest t tbl

/-- Boolean list membership for column names. -/
def memB : List String → String → Bool
  | [], _ => false
  | y :: ys, c => if y = c then true else memB ys c

/-- Every element of the first list occurs in the second. -/
def allMemB : List String → List String → Bool
  | [], _ => true
  | c :: cs, ys => memB ys c && allMemB cs ys

/-- The list has no repeated element. -/
def nodupB : List String → Bool
  | [] => true
  | c :: cs => !(memB cs c) && nodupB cs

/-- Array.prototype.join with separator ", ", as used by insert. -/
def joinComma : List String → String
  | [] => ""
  | [x] => x
  | x :: y :: xs => x ++ ", " ++ joinComma (y :: xs)

/-- Number of question-mark characters in a string. -/
def countQ (s : String) : Nat := s.data.count '?'

/-! ## Query builders, translated from the source -/

/-- Builder for createTable: CREATE TABLE IF NOT EXISTS t (cols). -/
def createTable_query (tableName columns : String) : String :=
  "CREATE TABLE IF NOT EXISTS " ++ tableName ++ " (" ++ columns ++ ")"

/-- The placeholder fragment of insert: one question mark per value,
joined by ", " (the source maps each value to a question mark and joins). -/
def placeholdersOf (values : List Value) : String :=
  joinComma (values.map fun _ => "?")

/-- Builder for insert: INSERT INTO t (cols) VALUES (placeholders). -/
def insert_query (tableName columns : String) (values : List Value) : String :=
  "INSERT INTO " ++ tableName ++ " (" ++ columns ++ ") VALUES ("
    ++ placeholdersOf values ++ ")"

/-- Builder for update: UPDATE t SET s WHERE c. -/
def update_query (tableName setValues condition : String) : String :=
  "UPDATE " ++ tableName ++ " SET " ++ setValues ++ " WHERE " ++ condition

/-- Builder for delete: DELETE FROM t WHERE c. -/
def delete_query (tableName condition : String) : String :=
  "DELETE FROM " ++ tableName ++ " WHERE " ++ condition

/-- Builder for selectAll: SELECT * FROM t. -/
def selectAll_query (tableName : String) : String :=
  "SELECT * FROM " ++ tableName

/-- Builder for selectWhere: SELECT * FROM t WHERE c. -/
def selectWhere_query (tableName condition : String) : String :=
  "SELECT * FROM " ++ tableName ++ " WHERE " ++ condition

/-- Builder for selectAllOrdered: SELECT * FROM t ORDER BY o. -/
def selectAllOrdered_query (tableName orderBy : String) : String :=
  "SELECT * FROM " ++ tableName ++ " ORDER BY " ++ orderBy

/-! ## String layer: the facade class -/

/-- The facade class: its single field is the database file name fixed at
construction (the source class has the one private field dbName). -/
structure swnSQLite where
  dbName : String
deriving DecidableEq, Repr

/-- The constructor: stores the database file name. -/
def swnSQLite.new (dbName : String) : swnSQLite := ⟨dbName⟩

/-- Abstract behaviour of the external engine on raw statement strings:
given the database file name, the statement text and the bound
parameters, the result of running, of fetching all rows, or of fetching
one row.  The delegation facts of the facade hold for every such engine. -/
structure StringEngine where
  runRes : String → String → List Value → Except Err Unit
  allRes : String → String → List Value → Except Err (List Row)
  getRes : String → String → List Value → Except Err (Option Row)

/-- executeQuery: run one statement against the named file, no result.
The source default for params is the empty list; callers that omit it
pass the empty list here. -/
def swnSQLite.executeQuery (E : StringEngine) (self : swnSQLite)
    (query : String) (params : List Value) : Except Err Unit :=
  E.runRes self.dbName query params

/-- fetchAll: run one statement and return all rows. -/
def swnSQLite.fetchAll (E : StringEngine) (self : swnSQLite)
    (query : String) (params : List Value) : Except Err (List Row) :=
  E.allRes self.dbName query params

/-- fetchOne: run one statement and return the single optional first row. -/
def swnSQLite.fetchOne (E : StringEngine) (self : swnSQLite)
    (query : String) (params : List Value) : Except Err (Option Row) :=
  E.getRes self.dbName query params

/-- createTable delegates to executeQuery with the built statement and the
default empty parameter list. -/
def swnSQLite.createTable (E : StringEngine) (self : swnSQLite)
    (tableName columns : String) : Except Err Unit :=
  self.executeQuery E (createTable_query tableName columns) []

/-- insert delegates to executeQuery with the built statement and the
values as parameters. -/
def swnSQLite.insert (E : StringEngine) (self : swnSQLite)
    (tableName columns : String) (values : List Value) : Except Err Unit :=
  self.executeQuery E (insert_query tableName columns values) values

/-- update delegates to executeQuery with the built statement. -/
def swnSQLite.update (E : StringEngine) (self : swnSQLite)
    (tableName setValues condition : String) (params : List Value) :
    Except Err Unit :=
  self.executeQuery E (update_query tableName setValues condition) params

/-- delete delegates to executeQuery with the built statement. -/
def swnSQLite.delete (E : StringEngine) (self : swnSQLite)
    (tableName condition : String) (params : List Value) : Except Err Unit :=
  self.executeQuery E (delete_query tableName condition) params

/-- selectAll delegates to fetchAll with the built statement and the
default empty parameter list. -/
def swnSQLite.selectAll (E : StringEngine) (self : swnSQLite)
    (tableName : String) : Except Err (List Row) :=
  self.fetchAll E (selectAll_query tableName) []

/-- selectWhere delegates to fetchAll with the built statement. -/
def swnSQLite.selectWhere (E : StringEngine) (self : swnSQLite)
    (tableName condition : String) (params : List Value) :
    Except Err (List Row) :=
  self.fetchAll E (selectWhere_query tableName condition) params

/-- selectAllOrdered delegates to fetchAll with the built statement and
the default empty parameter list. -/
def swnSQLite.selectAllOrdered (E : StringEngine) (self : swnSQLite)
    (tableName orderBy : String) : Except Err (List Row) :=
  self.fetchAll E (selectAllOrdered_query tableName orderBy) []

/-! ## Semantic layer: statements, the modelled engine, handles -/

/-- Statement abstract syntax: the parsed forms of the statements the
facade builds.  Condition text is modelled semantically, as a predicate
on the bound parameters and a row; assignment text as a function from the
bound parameters and a row to the updated row.  An insert statement
records its target columns and its number of placeholders; the values
arrive as bound parameters, as in the source. -/
inductive Stmt where
  | createTableIfNotExists (t : String) (cols : List String)
  | insertStmt (t : String) (cols : List String) (nPh : Nat)
  | updateStmt (t : String) (setF : List Value → Row → Row)
      (cond : List Value → Row → Bool)
  | deleteStmt (t : String) (cond : List Value → Row → Bool)
  | selectStmt (t : String) (cond : Option (List Value → Row → Bool))

/-- The row an insert stores: for each schema column, the value bound to
it by the column list and parameters, or null when the column is not
named (modelled from the engine: unnamed columns receive their default,
here null). -/
def newRow (schemaCols cols : List String) (params : List Value) : Row :=
  schemaCols.map fun c => (c, (assocGet (cols.zip params) c).getD Value.nullV)

/-- The rows a select returns: all rows, or those satisfying the
condition under the bound parameters. -/
def rowsMatching (cond : Option (List Value → Row → Bool))
    (params : List Value) (rows : List Row) : List Row :=
  match cond with
  | none => rows
  | some c => rows.filter (c params)

/-- One step of the external engine: execute a single statement against
the database, returning the updated database and the result rows, or an
error.  Modelled from the documented behaviour of SQLite on the statement
forms the facade issues: CREATE TABLE IF NOT EXISTS succeeds whether or
not the table exists; INSERT with an empty VALUES list is a syntax error
(the grammar requires at least one expression); statements against a
missing table fail; an insert fails when a target column is missing or
repeated, when the column count differs from the placeholder count, or
when the bound parameter count differs from the placeholder count;
UPDATE rewrites exactly the rows the condition matches; DELETE removes
exactly the rows the condition matches; SELECT returns the rows the
condition matches, all rows when there is no condition. -/
def runStmt (db : DB) : Stmt → List Value → Except Err (DB × List Row)
  | .createTableIfNotExists t cols, _ =>
      match assocGet db t with
      | some _ => .ok (db, [])
      | none => .ok ((t, ⟨cols, []⟩) :: db, [])
  | .insertStmt t cols nPh, params =>
      if nPh = 0 then .error .parseError
      else
        match assocGet db t with
        | none => .error .noSuchTable
        | some tbl =>
            if nodupB cols then
              if allMemB cols tbl.cols then
                if cols.length = nPh then
                  if params.length = nPh then
                    .ok (dbSet db t
                      ⟨tbl.cols, tbl.rows ++ [newRow tbl.cols cols params]⟩, [])
                  else .error .arityMismatch
                else .error .columnCountMismatch
              else .error .noSuchColumn
            else .error .duplicateColumn
  | .updateStmt t setF cond, params =>
      match assocGet db t with
      | none => .error .noSuchTable
      | some tbl =>
          .ok (dbSet db t
            ⟨tbl.cols,
             tbl.rows.map fun r => if cond params r then setF params r else r⟩,
            [])
  | .deleteStmt t cond, params =>
      match assocGet db t with
      | none => .error .noSuchTable
      | some tbl =>
          .ok (dbSet db t ⟨tbl.cols, tbl.rows.filter fun r => !(cond params r)⟩,
            [])
  | .selectStmt t cond, params =>
      match assocGet db t with
      | none => .error .noSuchTable
      | some tbl => .ok (db, rowsMatching cond params tbl.rows)

/-- Whether an engine result is a success. -/
def exceptOk {ε α : Type} : Except ε α → Bool
  | .ok _ => true
  | .error _ => false

/-- The world outside one call: the database behind the file, and the
number of handles the facade has opened and not yet closed. -/
structure World where
  db : DB
  openHandles : Nat
deriving DecidableEq, Repr

/-- executeQuery, semantic layer, translated from the source control
flow: open a handle, run the statement, close the handle, return
nothing.  When the run rejects, the error propagates at once and the
close step does not run, so the failure result carries a world that
still holds the opened handle. -/
def executeQueryM (w : World) (s : Stmt) (params : List Value) :
    Except (Err × World) World :=
  let w1 : World := ⟨w.db, w.openHandles + 1⟩
  match runStmt w1.db s params with
  | .error e => .error (e, w1)
  | .ok (db2, _) => .ok ⟨db2, w1.openHandles - 1⟩

/-- fetchAll, semantic layer: open, run, close, return all rows; on a run
error the close step does not run. -/
def fetchAllM (w : World) (s : Stmt) (params : List Value) :
    Except (Err × World) (World × List Row) :=
  let w1 : World := ⟨w.db, w.openHandles + 1⟩
  match runStmt w1.db s params with
  | .error e => .error (e, w1)
  | .ok (db2, rows) => .ok (⟨db2, w1.openHandles - 1⟩, rows)

/-- fetchOne, semantic layer: open, run, close, return the first row if
any; on a run error the close step does not run. -/
def fetchOneM (w : World) (s : Stmt) (params : List Value) :
    Except (Err × World) (World × Option Row) :=
  let w1 : World := ⟨w.db, w.openHandles + 1⟩
  match runStmt w1.db s params with
  | .error e => .error (e, w1)
  | .ok (db2, rows) => .ok (⟨db2, w1.openHandles - 1⟩, rows.head?)

/-- createTable, semantic layer: executeQuery on the parsed statement,
empty parameters. -/
def createTableM (w : World) (t : String) (cols : List String) :
    Except (Err × World) World :=
  executeQueryM w (.createTableIfNotExists t cols) []

/-- insert, semantic layer: executeQuery on the parsed statement with one
placeholder per value, the values as parameters. -/
def insertM (w : World) (t : String) (cols : List String)
    (values : List Value) : Except (Err × World) World :=
  executeQueryM w (.insertStmt t cols values.length) values

/-- update, semantic layer: executeQuery on the parsed statement. -/
def updateM (w : World) (t : String) (setF : List Value → Row → Row)
    (cond : List Value → Row → Bool) (params : List Value) :
    Except (Err × World) World :=
  executeQueryM w (.updateStmt t setF cond) params

/-- delete, semantic layer: executeQuery on the parsed statement. -/
def deleteM (w : World) (t : String) (cond : List Value → Row → Bool)
    (params : List Value) : Except (Err × World) World :=
  executeQueryM w (.deleteStmt t cond) params

/-- selectAll, semantic layer: fetchAll on the parsed statement with no
condition and empty parameters. -/
def selectAllM (w : World) (t : String) :
    Except (Err × World) (World × List Row) :=
  fetchAllM w (.selectStmt t none) []

/-- selectWhere, semantic layer: fetchAll on the parsed statement with
the condition and parameters. -/
def selectWhereM (w : World) (t : String)
    (cond : List Value → Row → Bool) (params : List Value) :
    Except (Err × World) (World × List Row) :=
  fetchAllM w (.selectStmt t (some cond)) params

/-! ## Claim theorems -/

/-- C1, counterexample: the claim says the handle opened at the start of
the call is closed before the call returns even on the failure path.  On
the empty database, a select against a missing table makes the run step
fail, and the world carried by the error still holds the opened handle:
one handle open, not zero. -/
theorem executeQuery_leak_cx :
    executeQueryM ⟨[], 0⟩ (Stmt.selectStmt "t" none) [] =
      .error (Err.noSuchTable, ⟨[], 1⟩) ∧ (1 : Nat) ≠ 0 :=
  ⟨rfl, by decide⟩

/-- C1, amended: every primitive closes its handle on the success path
(the open handle count returns to its initial value), but on the failure
path the error propagates before the close step, so the handle stays
open (the count is one above its initial value).  The higher level
operations delegate to these primitives, so they behave the same way. -/
theorem handle_release_amended (w : World) (s : Stmt) (p : List Value) :
    (match executeQueryM w s p with
     | .ok w2 => w2.openHandles = w.openHandles
     | .error (_, w1) => w1.openHandles = w.openHandles + 1) ∧
    (match fetchAllM w s p with
     | .ok (w2, _) => w2.openHandles = w.openHandles
     | .error (_, w1) => w1.openHandles = w.openHandles + 1) ∧
    (match fetchOneM w s p with
     | .ok (w2, _) => w2.openHandles = w.openHandles
     | .error (_, w1) => w1.openHandles = w.openHandles + 1) := by
  unfold executeQueryM fetchAllM fetchOneM
  cases h : runStmt w.db s p with
  | error e => simp [h]
  | ok r => cases r with | mk db2 rows => simp [h]

/-- C4: selectAll, selectWhere and selectAllOrdered return exactly the
result of fetchAll on the statement the claim names, with the parameter
list the claim names, for every engine behaviour. -/
theorem select_delegation (E : StringEngine) (self : swnSQLite)
    (t c o : String) (p : List Value) :
    self.selectAll E t = self.fetchAll E ("SELECT * FROM " ++ t) [] ∧
    self.selectWhere E t c p =
      self.fetchAll E ("SELECT * FROM " ++ t ++ " WHERE " ++ c) p ∧
    self.selectAllOrdered E t o =
      self.fetchAll E ("SELECT * FROM " ++ t ++ " ORDER BY " ++ o) [] :=
  ⟨rfl, rfl, rfl⟩

/-- C9: the facade keeps no in-process state: its only field is the
database file name stored by the constructor, two facades with the same
file name are equal, and every operation is a pure function of the file
name and the call arguments, so no call can observe or modify any other
in-process state. -/
theorem facade_stateless :
    (∀ n : String, (swnSQLite.new n).dbName = n) ∧
    (∀ a b : swnSQLite, a.dbName = b.dbName → a = b) ∧
    (∀ (E : StringEngine) (a b : swnSQLite), a.dbName = b.dbName →
      (∀ q p, a.executeQuery E q p = b.executeQuery E q p) ∧
      (∀ q p, a.fetchAll E q p = b.fetchAll E q p) ∧
      (∀ q p, a.fetchOne E q p = b.fetchOne E q p) ∧
      (∀ t c, a.createTable E t c = b.createTable E t c) ∧
      (∀ t c v, a.insert E t c v = b.insert E t c v) ∧
      (∀ t s c p, a.update E t s c p = b.update E t s c p) ∧
      (∀ t c p, a.delete E t c p = b.delete E t c p) ∧
      (∀ t, a.selectAll E t = b.selectAll E t) ∧
      (∀ t c p, a.selectWhere E t c p = b.selectWhere E t c p) ∧
      (∀ t o, a.selectAllOrdered E t o = b.selectAllOrdered E t o)) := by
  refine ⟨fun _ => rfl, ?_, ?_⟩
  · intro a b h; cases a; cases b; cases h; rfl
  · intro E a b h
    cases a; cases b; cases h
    exact ⟨fun _ _ => rfl, fun _ _ => rfl, fun _ _ => rfl, fun _ _ => rfl,
      fun _ _ _ => rfl, fun _ _ _ _ => rfl, fun _ _ _ => rfl, fun _ => rfl,
      fun _ _ _ => rfl, fun _ _ => rfl⟩

/-- C9, witness: the equal-name hypothesis discharged at a concrete
facade. -/
theorem facade_stateless_witness : swnSQLite.new "example.db" = ⟨"example.db"⟩ :=
  facade_stateless.2.1 (swnSQLite.new "example.db") ⟨"example.db"⟩ rfl

/-- C10: insert with an empty value list builds the statement
INSERT INTO t (cols) VALUES () with an empty placeholder list, and the
modelled engine rejects the empty VALUES list as a syntax error, so the
operation always fails (leaving its handle open, as on every failure
path). -/
theorem insert_empty_values_fails (t cols tn : String)
    (colsL : List String) (w : World) :
    insert_query t cols [] =
      "INSERT INTO " ++ t ++ " (" ++ cols ++ ") VALUES ()" ∧
    insertM w tn colsL [] =
      .error (Err.parseError, ⟨w.db, w.openHandles + 1⟩) := by
  constructor
  · show "INSERT INTO " ++ t ++ " (" ++ cols ++ ") VALUES (" ++ "" ++ ")" = _
    rw [String.append_empty, String.append_assoc]
    congr 1
  · rfl

/-! ## Helper lemmas -/

theorem memB_iff (l : List String) (c : String) : memB l c = true ↔ c ∈ l := by
  induction l with
  | nil => simp [memB]
  | cons y ys ih =>
      by_cases hy : y = c
      · subst hy; simp [memB]
      · simp [memB, hy, ih, List.mem_cons, Ne.symm hy]

theorem allMemB_mem (cs ys : List String) (c : String)
    (h : allMemB cs ys = true) (hc : c ∈ cs) : c ∈ ys := by
  induction cs with
  | nil => simp at hc
  | cons d ds ih =>
      simp only [allMemB, Bool.and_eq_true] at h
      rcases List.mem_cons.mp hc with rfl | hc2
      · exact (memB_iff _ _).mp h.1
      · exact ih h.2 hc2

theorem map_id_of_mem {α : Type} (l : List α) (f : α → α)
    (h : ∀ x ∈ l, f x = x) : l.map f = l := by
  induction l with
  | nil => rfl
  | cons x xs ih =>
      simp [h x (by simp), ih fun y hy => h y (by simp [hy])]

theorem dbSet_self (db : DB) (t : String) (tbl : Table)
    (h : assocGet db t = some tbl) : dbSet db t tbl = db := by
  induction db with
  | nil => simp [assocGet] at h
  | cons p rest ih =>
      obtain ⟨n, tb⟩ := p
      by_cases hn : n = t
      · subst hn
        simp [assocGet] at h
        simp [dbSet, h]
      · simp [assocGet, hn] at h
        simp [dbSet, hn, ih h]

theorem assocGet_dbSet (db : DB) (t : String) (tbl tbl2 : Table)
    (h : assocGet db t = some tbl) :
    assocGet (dbSet db t tbl2) t = some tbl2 := by
  induction db with
  | nil => simp [assocGet] at h
  | cons p rest ih =>
      obtain ⟨n, tb⟩ := p
      by_cases hn : n = t
      · subst hn; simp [dbSet, assocGet]
      · simp [assocGet, hn] at h
        simp [dbSet, assocGet, hn, ih h]

theorem filter_of_not_filter {α : Type} (l : List α) (p : α → Bool) :
    (l.filter fun x => !(p x)).filter p = [] := by
  induction l with
  | nil => rfl
  | cons x xs ih =>
      cases hx : p x <;> simp [List.filter_cons, hx, ih]

/-! ## Claim theorems, continued -/

/-- C3: createTable is idempotent: in the model the first call always
succeeds, and a second call with identical arguments succeeds as well
and leaves the world exactly as the first call left it, because the
issued statement is CREATE TABLE IF NOT EXISTS and the engine treats an
existing table as a silent success. -/
theorem createTable_idempotent (w : World) (t : String) (cols : List String) :
    ∃ w1, createTableM w t cols = .ok w1 ∧
      createTableM w1 t cols = .ok w1 ∧ w1.openHandles = w.openHandles := by
  cases hT : assocGet w.db t with
  | some tbl =>
      refine ⟨⟨w.db, w.openHandles⟩, ?_, ?_, rfl⟩ <;>
        simp [createTableM, executeQueryM, runStmt, hT]
  | none =>
      refine ⟨⟨(t, ⟨cols, ([] : List Row)⟩) :: w.db, w.openHandles⟩, ?_, ?_, rfl⟩
      · simp [createTableM, executeQueryM, runStmt, hT]
      · simp [createTableM, executeQueryM, runStmt, assocGet]

/-- C5: on a select whose condition matches no row of the (existing)
table, fetchAll succeeds with the empty sequence and fetchOne succeeds
with the absent row; neither raises an error, and the world is returned
unchanged. -/
theorem fetch_empty_result (w : World) (t : String)
    (cond : Option (List Value → Row → Bool)) (params : List Value)
    (tbl : Table) (hT : assocGet w.db t = some tbl)
    (hE : rowsMatching cond params tbl.rows = []) :
    fetchAllM w (.selectStmt t cond) params = .ok (w, []) ∧
    fetchOneM w (.selectStmt t cond) params = .ok (w, none) := by
  constructor <;> simp [fetchAllM, fetchOneM, runStmt, hT, hE]

/-- C5, witness: a select with a never-true condition over a one-row
table matches zero rows; fetchAll returns the empty list and fetchOne
returns none. -/
theorem fetch_empty_result_witness :
    fetchAllM ⟨[("users", ⟨["id"], [[("id", Value.intV 1)]]⟩)], 0⟩
        (.selectStmt "users" (some fun _ _ => false)) [] =
      .ok (⟨[("users", ⟨["id"], [[("id", Value.intV 1)]]⟩)], 0⟩, []) ∧
    fetchOneM ⟨[("users", ⟨["id"], [[("id", Value.intV 1)]]⟩)], 0⟩
        (.selectStmt "users" (some fun _ _ => false)) [] =
      .ok (⟨[("users", ⟨["id"], [[("id", Value.intV 1)]]⟩)], 0⟩, none) :=
  fetch_empty_result ⟨[("users", ⟨["id"], [[("id", Value.intV 1)]]⟩)], 0⟩
    "users" (some fun _ _ => false) [] ⟨["id"], [[("id", Value.intV 1)]]⟩
    rfl rfl

/-- C7: an update whose condition matches no row of the (existing) table
succeeds and returns the world unchanged: no row of any table is
modified and the handle count is back to its initial value. -/
theorem update_no_match_noop (w : World) (t : String)
    (setF : List Value → Row → Row) (cond : List Value → Row → Bool)
    (params : List Value) (tbl : Table)
    (hT : assocGet w.db t = some tbl)
    (hNo : ∀ r ∈ tbl.rows, cond params r = false) :
    updateM w t setF cond params = .ok w := by
  have hm : (tbl.rows.map fun r => if cond params r then setF params r else r)
      = tbl.rows :=
    map_id_of_mem _ _ fun r hr => by simp [hNo r hr]
  simp [updateM, executeQueryM, runStmt, hT, hm, dbSet_self w.db t tbl hT]

/-- C7, witness: updating a one-row table under a never-true condition
returns the world unchanged. -/
theorem update_no_match_noop_witness :
    updateM ⟨[("users", ⟨["id"], [[("id", Value.intV 1)]]⟩)], 0⟩ "users"
      (fun _ r => r) (fun _ _ => false) [] =
    .ok ⟨[("users", ⟨["id"], [[("id", Value.intV 1)]]⟩)], 0⟩ :=
  update_no_match_noop ⟨[("users", ⟨["id"], [[("id", Value.intV 1)]]⟩)], 0⟩
    "users" (fun _ r => r) (fun _ _ => false) []
    ⟨["id"], [[("id", Value.intV 1)]]⟩ rfl (fun _ _ => rfl)

/-- C8: after a delete succeeds, selectWhere with the same condition and
parameters on the resulting world succeeds and returns the empty
sequence: every row the condition matches was removed. -/
theorem delete_then_selectWhere_empty (w : World) (t : String)
    (cond : List Value → Row → Bool) (params : List Value) (w1 : World)
    (hDel : deleteM w t cond params = .ok w1) :
    selectWhereM w1 t cond params = .ok (w1, []) := by
  simp only [deleteM, executeQueryM] at hDel
  cases hT : assocGet w.db t with
  | none => simp [runStmt, hT] at hDel
  | some tbl =>
      simp [runStmt, hT] at hDel
      subst hDel
      simp [selectWhereM, fetchAllM, runStmt,
        assocGet_dbSet w.db t tbl _ hT, rowsMatching, filter_of_not_filter]

/-- C8, witness: deleting the matching row of a one-row table, then
selecting with the same condition, returns the empty sequence. -/
theorem delete_then_selectWhere_empty_witness :
    selectWhereM ⟨[("users", ⟨["id"], []⟩)], 0⟩ "users"
      (fun _ _ => true) [] = .ok (⟨[("users", ⟨["id"], []⟩)], 0⟩, []) :=
  delete_then_selectWhere_empty
    ⟨[("users", ⟨["id"], [[("id", Value.intV 1)]]⟩)], 0⟩ "users"
    (fun _ _ => true) [] ⟨[("users", ⟨["id"], []⟩)], 0⟩ rfl

/-! ## Helper lemmas for the round-trip and placeholder claims -/

theorem assocGet_map_self (l : List String) (f : String → Value) (c : String) :
    assocGet (l.map fun k => (k, f k)) c
      = if c ∈ l then some (f c) else none := by
  induction l with
  | nil => simp [assocGet]
  | cons k ks ih =>
      by_cases hk : k = c
      · subst hk; simp [assocGet]
      · simp [assocGet, hk, ih, List.mem_cons, Ne.symm hk]

theorem assocGet_zip_of_mem (cols : List String) (values : List Value)
    (c : String) (v : Value) (hnd : nodupB cols = true)
    (hm : (c, v) ∈ cols.zip values) :
    assocGet (cols.zip values) c = some v := by
  induction cols generalizing values with
  | nil => simp at hm
  | cons k ks ih =>
      cases values with
      | nil => simp at hm
      | cons u us =>
          simp only [nodupB, Bool.and_eq_true, Bool.not_eq_true'] at hnd
          obtain ⟨hkm, hnd2⟩ := hnd
          simp only [List.zip_cons_cons, List.mem_cons] at hm
          rcases hm with hm1 | hm2
          · obtain ⟨rfl, rfl⟩ := Prod.mk.injEq .. ▸ hm1
            simp [assocGet]
          · have hck : c ∈ ks := (List.of_mem_zip hm2).1
            have hk_ne : ¬ (k = c) := by
              intro he
              subst he
              exact absurd ((memB_iff ks k).mpr hck) (by simp [hkm])
            simpa [assocGet, hk_ne] using ih us hnd2 hm2

theorem runStmt_insert_ok (db : DB) (t : String) (cols : List String)
    (nPh : Nat) (params : List Value) (res : DB × List Row)
    (h : runStmt db (.insertStmt t cols nPh) params = .ok res) :
    ∃ tbl, assocGet db t = some tbl ∧ nodupB cols = true ∧
      allMemB cols tbl.cols = true ∧ cols.length = nPh ∧
      params.length = nPh ∧
      res = (dbSet db t
        ⟨tbl.cols, tbl.rows ++ [newRow tbl.cols cols params]⟩, []) := by
  simp only [runStmt] at h
  split at h
  · cases h
  · split at h
    · cases h
    · next tbl hT =>
        split at h
        next hnd =>
          split at h
          next hmem =>
            split at h
            next hlen =>
              split at h
              next harity =>
                cases h
                exact ⟨tbl, hT, hnd, hmem, hlen, harity, rfl⟩
              next harity => cases h
            next hlen => cases h
          next hmem => cases h
        next hnd => cases h

/-- C6: round trip of insert and select: when an insert succeeds, the
world it returns contains the inserted row; selectAll on that table
returns a row list containing a row whose value at every inserted column
is exactly the inserted value, and selectWhere with any condition that
the inserted row satisfies also returns that row. -/
theorem insert_select_roundtrip (w : World) (t : String) (cols : List String)
    (values : List Value) (w1 : World)
    (hIns : insertM w t cols values = .ok w1) :
    ∃ rows r, selectAllM w1 t = .ok (w1, rows) ∧ r ∈ rows ∧
      (∀ p ∈ cols.zip values, assocGet r p.1 = some p.2) ∧
      (∀ (cond : List Value → Row → Bool) (ps : List Value),
        cond ps r = true →
        ∃ rows2, selectWhereM w1 t cond ps = .ok (w1, rows2) ∧ r ∈ rows2) := by
  simp only [insertM, executeQueryM] at hIns
  cases hR : runStmt w.db (.insertStmt t cols values.length) values with
  | error e => simp [hR] at hIns
  | ok res =>
      obtain ⟨db2, rrows⟩ := res
      obtain ⟨tbl, hT, hnd, hmem, hlen, harity, hres⟩ :=
        runStmt_insert_ok w.db t cols values.length values (db2, rrows) hR
      obtain ⟨hdb, hrr⟩ := Prod.mk.injEq .. ▸ hres
      subst hdb
      simp [hR] at hIns
      subst hIns
      refine ⟨tbl.rows ++ [newRow tbl.cols cols values],
        newRow tbl.cols cols values, ?_, by simp, ?_, ?_⟩
      · simp [selectAllM, fetchAllM, runStmt,
          assocGet_dbSet w.db t tbl _ hT, rowsMatching]
      · intro p hp
        obtain ⟨c, v⟩ := p
        have hc_cols : c ∈ cols := (List.of_mem_zip hp).1
        have hc_schema : c ∈ tbl.cols := allMemB_mem cols tbl.cols c hmem hc_cols
        simp [newRow, assocGet_map_self, hc_schema,
          assocGet_zip_of_mem cols values c v hnd hp]
      · intro cond ps hcond
        refine ⟨(tbl.rows ++ [newRow tbl.cols cols values]).filter (cond ps),
          ?_, ?_⟩
        · simp [selectWhereM, fetchAllM, runStmt,
            assocGet_dbSet w.db t tbl _ hT, rowsMatching]
        · simp [List.mem_filter, hcond]

/-- C6, witness: inserting the row (1, a) into an empty users table,
then selecting, returns a row whose id is 1 and whose name is a. -/
theorem insert_select_roundtrip_witness :
    ∃ rows r,
      selectAllM ⟨[("users", ⟨["id", "name"],
          [[("id", Value.intV 1), ("name", Value.textV "a")]]⟩)], 0⟩
        "users" =
        .ok (⟨[("users", ⟨["id", "name"],
          [[("id", Value.intV 1), ("name", Value.textV "a")]]⟩)], 0⟩,
          rows) ∧
      r ∈ rows ∧
      (∀ p ∈ (["id", "name"].zip [Value.intV 1, Value.textV "a"]),
        assocGet r p.1 = some p.2) ∧
      (∀ (cond : List Value → Row → Bool) (ps : List Value),
        cond ps r = true →
        ∃ rows2,
          selectWhereM ⟨[("users", ⟨["id", "name"],
            [[("id", Value.intV 1), ("name", Value.textV "a")]]⟩)], 0⟩
            "users" cond ps =
            .ok (⟨[("users", ⟨["id", "name"],
              [[("id", Value.intV 1), ("name", Value.textV "a")]]⟩)], 0⟩,
              rows2) ∧ r ∈ rows2) :=
  insert_select_roundtrip ⟨[("users", ⟨["id", "name"], []⟩)], 0⟩ "users"
    ["id", "name"] [Value.intV 1, Value.textV "a"]
    ⟨[("users", ⟨["id", "name"],
      [[("id", Value.intV 1), ("name", Value.textV "a")]]⟩)], 0⟩ rfl

theorem countQ_append (a b : String) :
    countQ (a ++ b) = countQ a + countQ b := by
  simp [countQ, String.data_append, List.count_append]

theorem countQ_joinComma (l : List String) :
    countQ (joinComma l) = (l.map countQ).sum := by
  induction l with
  | nil => simp [joinComma, countQ]
  | cons x xs ih =>
      cases xs with
      | nil => simp [joinComma]
      | cons y ys =>
          have hsep : countQ ", " = 0 := by decide
          simp only [joinComma, countQ_append, hsep] at ih ⊢
          simp [ih]

theorem sum_ones {α : Type} (l : List α) :
    (l.map fun _ => (1 : Nat)).sum = l.length := by
  induction l with
  | nil => rfl
  | cons x xs ih =>
      simp [ih]
      omega

theorem countQ_placeholders (values : List Value) :
    countQ (placeholdersOf values) = values.length := by
  have hq : (countQ ∘ fun (_ : Value) => "?") = fun (_ : Value) => (1 : Nat) := by
    funext v
    show countQ "?" = 1
    decide
  rw [placeholdersOf, countQ_joinComma, List.map_map, hq, sum_ones]

/-- C2, counterexample: the claim counts question marks over the whole
generated statement for every column list text; when the column list
text itself contains a question mark, the statement holds more question
marks than there are values: with one value and column text a?, the
statement contains two. -/
theorem insert_placeholder_count_cx :
    countQ (insert_query "t" "a?" [Value.intV 1]) = 2 ∧
    ([Value.intV 1] : List Value).length = 1 ∧ (2 : Nat) ≠ 1 :=
  ⟨by decide, rfl, by decide⟩

/-- C2, amended: insert builds exactly one positional placeholder per
element of the value list, joined by comma and space, so the placeholder
fragment holds exactly one question mark per value; the whole generated
statement holds exactly one question mark per value plus those already
present in the table name and column list text (so exactly one per value
whenever those hold none); and the engine fails whenever the bound value
count differs from the placeholder count of the statement. -/
theorem insert_placeholders_amended (t cols : String) (values : List Value)
    (db : DB) (tn : String) (cl : List String) (nPh : Nat)
    (ps : List Value) :
    countQ (placeholdersOf values) = values.length ∧
    insert_query t cols values =
      "INSERT INTO " ++ t ++ " (" ++ cols ++ ") VALUES ("
        ++ placeholdersOf values ++ ")" ∧
    countQ (insert_query t cols values) =
      countQ t + countQ cols + values.length ∧
    (ps.length ≠ nPh →
      exceptOk (runStmt db (.insertStmt tn cl nPh) ps) = false) := by
  refine ⟨countQ_placeholders values, rfl, ?_, ?_⟩
  · have h1 : countQ "INSERT INTO " = 0 := by decide
    have h2 : countQ " (" = 0 := by decide
    have h3 : countQ ") VALUES (" = 0 := by decide
    have h4 : countQ ")" = 0 := by decide
    simp [insert_query, countQ_append, countQ_placeholders, h1, h2, h3, h4]
  · intro hne
    simp only [runStmt, if_neg hne]
    split
    · rfl
    · split
      · rfl
      · split
        · split
          · split <;> rfl
          · rfl
        · rfl

/-- C2, witness: with one value the placeholder fragment holds one
question mark, the statement is the standard template, its question mark
count over plain fragments is one, and the engine rejects a statement
with one placeholder and no bound value. -/
theorem insert_placeholders_amended_witness :
    countQ (placeholdersOf [Value.intV 1]) = 1 ∧
    insert_query "t" "a" [Value.intV 1] =
      "INSERT INTO " ++ "t" ++ " (" ++ "a" ++ ") VALUES ("
        ++ placeholdersOf [Value.intV 1] ++ ")" ∧
    countQ (insert_query "t" "a" [Value.intV 1]) =
      countQ "t" + countQ "a" + 1 ∧
    exceptOk (runStmt [] (.insertStmt "t" ["a"] 1) []) = false := by
  have h := insert_placeholders_amended "t" "a" [Value.intV 1] [] "t" ["a"] 1 []
  exact ⟨h.1, h.2.1, h.2.2.1, h.2.2.2 (by decide)⟩
